import Mathlib

set_option maxRecDepth 100000

/-!
Verification of the core of spotify-SMS-buddy (`src/spotify.py`) against its
natural-language specification.

The Python functions are shallowly embedded: pure string processing becomes
Lean functions on `List Char` / `String`, the HTTP + database side effects
become explicit state passing over a `World` record, and Python exceptions
become `Except PyErr`.  The repository's `models.py` and `my_secrets.py` are
not part of the sources; the `User` / `Playlist` records, the `auth_header`
property and the client-credential header are modelled from the spec and are
marked as such in their doc comments.
-/

/-- A JSON value, at the granularity consumed by `spotify.py`: strings,
booleans and objects (`json.loads` results are only ever subscripted by
string keys or used as strings). -/
inductive JVal where
  | jstr : String → JVal
  | jbool : Bool → JVal
  | jobj : List (String × JVal) → JVal

/-- Python exceptions that the embedded code can raise.  `keyError k` models
`KeyError` from `dict[k]`, `jsonError` models `json.JSONDecodeError`,
`indexError` models `IndexError` from `list[0]` on an empty list,
`attrError` models `AttributeError` from `None.auth_header`, and `typeErr`
models subscripting / using a JSON value at the wrong type. -/
inductive PyErr where
  | keyError : String → PyErr
  | jsonError : PyErr
  | indexError : PyErr
  | attrError : PyErr
  | typeErr : PyErr
deriving DecidableEq

/-- First binding of a key in a JSON object (Python dicts have unique keys). -/
def lookupField : List (String × JVal) → String → Option JVal
  | [], _ => none
  | (k, v) :: rest, key => if k = key then some v else lookupField rest key

/-- `d[k]` on a parsed JSON value: `KeyError` when the key is absent,
`typeErr` when the value is not an object. -/
def dictGet : JVal → String → Except PyErr JVal
  | .jobj fs, k =>
    match lookupField fs k with
    | some v => .ok v
    | none => .error (.keyError k)
  | _, _ => .error .typeErr

/-- Use a JSON value as a string (the provider schema makes every field the
code consumes a string; a non-string here is out of the provider's schema). -/
def getStr : JVal → Except PyErr String
  | .jstr s => .ok s
  | _ => .error .typeErr

/-- `d[k]` immediately used as a string. -/
def getStrF (j : JVal) (k : String) : Except PyErr String :=
  match dictGet j k with
  | .error e => .error e
  | .ok v => getStr v

/-- `json.loads(response.text)`: an HTTP body is modelled as `some v` when it
is valid JSON parsing to `v` and `none` when it is unparsable, in which case
`json.loads` raises. -/
def json_loads : Option JVal → Except PyErr JVal
  | some v => .ok v
  | none => .error .jsonError

/-! ## Track extraction (`get_track_ids_from_message`, spotify.py lines 157-169)

The Python code runs `re.findall('https:\/\/open.spotify.com\/track\/+[^? ]*', message)`
and strips the literal prefix `https://open.spotify.com/track/` from every
match with `str.replace`.  In the regex the two `.` of `open.spotify.com` are
wildcards (any character except a newline), `\/+` is one or more slashes and
`[^? ]*` is zero or more characters other than `'?'` and `' '`. -/

/-- The 30-character head of the regex, `https:\/\/open.spotify.com\/track`:
`some c` is a literal character, `none` is the `.` wildcard. -/
def tmpl : List (Option Char) :=
  [some 'h', some 't', some 't', some 'p', some 's', some ':', some '/',
   some '/', some 'o', some 'p', some 'e', some 'n', none, some 's',
   some 'p', some 'o', some 't', some 'i', some 'f', some 'y', none,
   some 'c', some 'o', some 'm', some '/', some 't', some 'r', some 'a',
   some 'c', some 'k']

/-- Match a literal/wildcard template against the head of a string; the `.`
wildcard matches any character except `'\n'` (Python `re` default). -/
def matchLit : List (Option Char) → List Char → Option (List Char)
  | [], s => some s
  | _ :: _, [] => none
  | p :: ps, c :: cs =>
    match p with
    | some a => if a = c then matchLit ps cs else none
    | none => if c = '\n' then none else matchLit ps cs

/-- Split off the maximal run of characters other than `'?'` and `' '`
(the greedy `[^? ]*`, which also absorbs the slashes of `\/+`). -/
def breakRun : List Char → List Char × List Char
  | [] => ([], [])
  | c :: cs =>
    if c = '?' ∨ c = ' ' then ([], c :: cs)
    else
      let p := breakRun cs
      (c :: p.1, p.2)

/-- Length of the regex match anchored at the head of `s`, if any: the
30-character template, then at least one `'/'`, then the greedy run. -/
def matchLen (s : List Char) : Option Nat :=
  match matchLit tmpl s with
  | none => none
  | some rest =>
    match rest with
    | [] => none
    | c :: _ => if c = '/' then some (30 + (breakRun rest).1.length) else none

/-- `re.findall`: scan left to right, take the leftmost match, continue after
it (non-overlapping).  Structural recursion on a fuel bounded by the length
of the string keeps the function kernel-computable. -/
def findallF : Nat → List Char → List (List Char)
  | 0, _ => []
  | _ + 1, [] => []
  | fuel + 1, c :: cs =>
    match matchLen (c :: cs) with
    | some n => List.take n (c :: cs) :: findallF fuel (List.drop n (c :: cs))
    | none => findallF fuel cs

/-- All regex matches of the message, leftmost first. -/
def findall (s : List Char) : List (List Char) := findallF s.length s

/-- The literal string `https://open.spotify.com/track/` that
`str.replace` deletes from each match (31 characters). -/
def trackUrlLit : List Char :=
  ['h', 't', 't', 'p', 's', ':', '/', '/', 'o', 'p', 'e', 'n', '.', 's',
   'p', 'o', 't', 'i', 'f', 'y', '.', 'c', 'o', 'm', '/', 't', 'r', 'a',
   'c', 'k', '/']

/-- Python `url.replace('https://open.spotify.com/track/', '')`: delete the
non-overlapping occurrences of the literal, scanning left to right. -/
def replaceAllF : Nat → List Char → List Char
  | 0, s => s
  | _ + 1, [] => []
  | fuel + 1, c :: cs =>
    if trackUrlLit.isPrefixOf (c :: cs) then replaceAllF fuel (List.drop 31 (c :: cs))
    else c :: replaceAllF fuel cs

/-- Delete every occurrence of the track-URL literal from a string. -/
def replaceAll (s : List Char) : List Char := replaceAllF s.length s

/-- `get_track_ids_from_message` on the character list of the message. -/
def get_track_ids_core (message : List Char) : List (List Char) :=
  (findall message).map replaceAll

/-- `get_track_ids_from_message` (spotify.py lines 157-169). -/
def get_track_ids_from_message (message : String) : List String :=
  (get_track_ids_core message.data).map String.mk

/-! ## Constants (spotify.py lines 9-17) -/

def SPOTIFY_AUTH_BASE_URL : String := "https://accounts.spotify.com"

def SPOTIFY_TOKEN_URL : String := SPOTIFY_AUTH_BASE_URL ++ "/api/token"

def SPOTIFY_API_URL : String := "https://api.spotify.com/v1"

def USER_PROFILE_ENDPOINT : String := SPOTIFY_API_URL ++ "/me"

/-- Modelled from the spec: the "fixed client-credential header supplied
out-of-band" (`SPOTIFY_CLIENT_HEADER` from the missing `my_secrets.py`).
Its value is opaque configuration; only its identity matters. -/
def SPOTIFY_CLIENT_HEADER : List (String × String) :=
  [("Authorization", "Basic client-credentials")]

/-! ## Data model

`models.py` is not among the sources; `User` and `Playlist` follow the spec's
data model (section 3). -/

/-- Modelled from the spec: the persisted `User` record of the missing
`models.py` — provider-assigned id, display name, unique email, profile URL,
the two tokens, and the optional active-playlist back-reference. -/
structure User where
  id : String
  display_name : String
  email : String
  url : String
  access_token : String
  refresh_token : String
  active_playlist_id : Option String
deriving DecidableEq

/-- Modelled from the spec: the `auth_header` property of `User` in the
missing `models.py` — the bearer header built from the current access token
("Issue the HTTP request with an `Authorization: Bearer <user.access_token>`
header"). -/
def User.auth_header (u : User) : List (String × String) :=
  [("Authorization", "Bearer " ++ u.access_token)]

/-- Modelled from the spec: the persisted `Playlist` record of the missing
`models.py` — provider-assigned id, title, provider URL, API endpoint for
track operations, owner reference by id. -/
structure Playlist where
  id : String
  title : String
  url : String
  endpoint : String
  owner_id : String
deriving DecidableEq

/-! ## Effects: HTTP and the persistence session

All side effects are threaded through an explicit `World`.  HTTP responses
come from an oracle stream `resps`; every outbound request is recorded in
`trace`, and every invocation of the authorized executor in `apiCalls`
(ghost state used only by the specifications).  The SQLAlchemy session is a
buffer `pending` flushed into the stores by `session_commit`, with the
flushed batches recorded in `commits`. -/

inductive Method where
  | post : Method
  | get : Method
deriving DecidableEq

/-- A request body: form-encoded key/value data (token endpoint) or a
`json.dumps` payload, represented by the JSON value it encodes. -/
inductive ReqBody where
  | form : List (String × String) → ReqBody
  | raw : JVal → ReqBody

/-- An outbound HTTP request as issued by `requests.post` / `requests.get`. -/
structure Request where
  method : Method
  url : String
  headers : List (String × String)
  data : Option ReqBody
  params : Option (List (String × String))

/-- One invocation of `make_authorized_api_call` (ghost record). -/
structure ApiCall where
  caller : User
  endpoint : String
  data : Option ReqBody
  params : Option (List (String × String))

/-- An HTTP response: status code, and the body given as `some v` when it is
valid JSON parsing to `v`, `none` when unparsable. -/
structure HttpResponse where
  status_code : Nat
  text : Option JVal

/-- An object handed to `db.session.add`. -/
inductive Entity where
  | euser : User → Entity
  | eplaylist : Playlist → Entity
deriving DecidableEq

structure World where
  resps : Nat → HttpResponse
  nextResp : Nat
  trace : List Request
  apiCalls : List ApiCall
  users : List User
  playlists : List Playlist
  pending : List Entity
  commits : List (List Entity)

/-- Issue one HTTP request: consume the next oracle response and record the
request. -/
def doRequest (m : Method) (url : String) (headers : List (String × String))
    (data : Option ReqBody) (params : Option (List (String × String)))
    (w : World) : HttpResponse × World :=
  (w.resps w.nextResp,
   { w with
     nextResp := w.nextResp + 1,
     trace := w.trace ++ [⟨m, url, headers, data, params⟩] })

/-- `db.session.add`. -/
def session_add (e : Entity) (w : World) : World :=
  { w with pending := w.pending ++ [e] }

/-- Write a user row, keyed by primary key `id`. -/
def upsertUser (us : List User) (u : User) : List User :=
  if us.any (fun v => v.id = u.id) then
    us.map (fun v => if v.id = u.id then u else v)
  else us ++ [u]

/-- Write a playlist row, keyed by primary key `id`. -/
def upsertPlaylist (ps : List Playlist) (p : Playlist) : List Playlist :=
  if ps.any (fun q => q.id = p.id) then
    ps.map (fun q => if q.id = p.id then p else q)
  else ps ++ [p]

/-- `db.session.commit`: flush the pending entities into the stores and
record the batch. -/
def session_commit (w : World) : World :=
  { w with
    users := w.pending.foldl
      (fun us e => match e with | .euser u => upsertUser us u | .eplaylist _ => us)
      w.users,
    playlists := w.pending.foldl
      (fun ps e => match e with | .eplaylist p => upsertPlaylist ps p | .euser _ => ps)
      w.playlists,
    pending := [],
    commits := w.commits ++ [w.pending] }

/-! ## Token refresh and the authorized executor (spotify.py lines 57-86) -/

/-- `refresh_access_token(user)` (spotify.py lines 57-72): POST the refresh
grant to the token endpoint, parse the body, read `access_token` (the status
code is never inspected and a returned `refresh_token` is never read),
overwrite the user's access token and persist. -/
def refresh_access_token (user : User) (w : World) : Except PyErr User × World :=
  let data := ReqBody.form
    [("grant_type", "refresh_token"), ("refresh_token", user.refresh_token)]
  let pr := doRequest .post SPOTIFY_TOKEN_URL SPOTIFY_CLIENT_HEADER (some data) none w
  match json_loads pr.1.text with
  | .error e => (.error e, pr.2)
  | .ok auth_data =>
    match dictGet auth_data "access_token" with
    | .error e => (.error e, pr.2)
    | .ok v =>
      match getStr v with
      | .error e => (.error e, pr.2)
      | .ok tok =>
        let user2 : User := { user with access_token := tok }
        (.ok user2, session_commit (session_add (.euser user2) pr.2))

/-- The access token a refresh would extract from a token-endpoint
response (specification helper mirroring `refresh_access_token`'s parse). -/
def tokenOf (r : HttpResponse) : Except PyErr String :=
  match json_loads r.text with
  | .error e => .error e
  | .ok d =>
    match dictGet d "access_token" with
    | .error e => .error e
    | .ok v => getStr v

/-- `make_authorized_api_call` (spotify.py lines 75-86): POST with the
caller's bearer header; on a 401, refresh once and reissue the identical
request once; return the parsed body of whatever response ends the call. -/
def make_authorized_api_call (user : User) (endpoint : String)
    (data : Option ReqBody) (params : Option (List (String × String)))
    (w : World) : Except PyErr JVal × World :=
  let w0 : World := { w with apiCalls := w.apiCalls ++ [⟨user, endpoint, data, params⟩] }
  let pr1 := doRequest .post endpoint user.auth_header data params w0
  if pr1.1.status_code = 401 then
    match refresh_access_token user pr1.2 with
    | (.error e, w2) => (.error e, w2)
    | (.ok user2, w2) =>
      let pr2 := doRequest .post endpoint user2.auth_header data params w2
      (json_loads pr2.1.text, pr2.2)
  else (json_loads pr1.1.text, pr1.2)

/-! ## Profile fetch and playlist operations (spotify.py lines 90-154, 172-186) -/

/-- `get_user_data(auth_data)` (spotify.py lines 90-125): read the token pair
from `auth_data`, GET the profile endpoint directly (not through the
executor), parse the profile fields, then create or update the user row. -/
def get_user_data (auth_data : JVal) (w : World) : Except PyErr User × World :=
  match getStrF auth_data "access_token" with
  | .error e => (.error e, w)
  | .ok access_token =>
    match getStrF auth_data "refresh_token" with
    | .error e => (.error e, w)
    | .ok refresh_token =>
      let hdr := [("Authorization", "Bearer " ++ access_token)]
      let pr := doRequest .get USER_PROFILE_ENDPOINT hdr none none w
      match json_loads pr.1.text with
      | .error e => (.error e, pr.2)
      | .ok profile_data =>
        match getStrF profile_data "display_name" with
        | .error e => (.error e, pr.2)
        | .ok display_name =>
          match getStrF profile_data "email" with
          | .error e => (.error e, pr.2)
          | .ok email =>
            match dictGet profile_data "external_urls" with
            | .error e => (.error e, pr.2)
            | .ok eu =>
              match getStrF eu "spotify" with
              | .error e => (.error e, pr.2)
              | .ok url =>
                match getStrF profile_data "id" with
                | .error e => (.error e, pr.2)
                | .ok id =>
                  match pr.2.users.find? (fun v => v.email = email) with
                  | none =>
                    let user : User :=
                      ⟨id, display_name, email, url, access_token, refresh_token, none⟩
                    (.ok user, session_commit (session_add (.euser user) pr.2))
                  | some u0 =>
                    let user : User :=
                      { u0 with access_token := access_token, refresh_token := refresh_token }
                    (.ok user, session_commit (session_add (.euser user) pr.2))

/-- Field extraction that `create_playlist` performs on the parsed response
(`id`, `external_urls.spotify`, `href`, `owner.id`, in source order). -/
def extractPlaylistFields (playlist_data : JVal) (title : String) :
    Except PyErr Playlist :=
  match getStrF playlist_data "id" with
  | .error e => .error e
  | .ok id =>
    match dictGet playlist_data "external_urls" with
    | .error e => .error e
    | .ok eu =>
      match getStrF eu "spotify" with
      | .error e => .error e
      | .ok url =>
        match getStrF playlist_data "href" with
        | .error e => .error e
        | .ok endp =>
          match dictGet playlist_data "owner" with
          | .error e => .error e
          | .ok ow =>
            match getStrF ow "id" with
            | .error e => .error e
            | .ok owner_id => .ok ⟨id, title, url, endp, owner_id⟩

/-- `create_playlist(user, title)` (spotify.py lines 128-154). -/
def create_playlist (user : User) (title : String) (w : World) :
    Except PyErr Playlist × World :=
  let data := ReqBody.raw (.jobj
    [("name", .jstr title), ("description", .jstr "Spotify SMS Playlist"),
     ("public", .jbool false), ("collaborative", .jbool true)])
  let endpoint := SPOTIFY_API_URL ++ "/users/" ++ user.id ++ "/playlists"
  match make_authorized_api_call user endpoint (some data) none w with
  | (.error e, w1) => (.error e, w1)
  | (.ok playlist_data, w1) =>
    match extractPlaylistFields playlist_data title with
    | .error e => (.error e, w1)
    | .ok new_playlist =>
      let user2 : User := { user with active_playlist_id := some new_playlist.id }
      (.ok new_playlist,
       session_commit (session_add (.euser user2)
         (session_add (.eplaylist new_playlist) w1)))

/-- `add_tracks_to_playlist(playlist, track_ids)` (spotify.py lines 172-186):
resolve the playlist's owner, index `track_ids[0]`, fold the remaining ids
into the comma-joined `uris` parameter, then call the executor with the
owner's credentials. -/
def add_tracks_to_playlist (playlist : Playlist) (track_ids : List String)
    (w : World) : Except PyErr Unit × World :=
  match w.users.find? (fun v => v.id = playlist.owner_id) with
  | none => (.error .attrError, w)
  | some owner =>
    let add_tracks_endpoint := playlist.endpoint ++ "/tracks"
    match track_ids with
    | [] => (.error .indexError, w)
    | first :: rest =>
      let uris_string := rest.foldl
        (fun acc tid => acc ++ "," ++ "spotify:track:" ++ tid)
        ("spotify:track:" ++ first)
      match make_authorized_api_call owner add_tracks_endpoint none
          (some [("uris", uris_string)]) w with
      | (.error e, w1) => (.error e, w1)
      | (.ok _, w1) => (.ok (), w1)

/-! ## Specification-side definitions

These follow the spec's wording (not the code) and exist to compare the two:
C2/C3/C4 speak of "track URLs" as the literal prefix followed by one or more
non-whitespace non-`'?'` characters, and C7 speaks of the comma-joined
`uris` value. -/

/-- Python `\s` whitespace. -/
def isPyWs (c : Char) : Bool :=
  c = ' ' || c = '\t' || c = '\n' || c = '\r' || c = '\x0b' || c = '\x0c'

/-- Modelled from the spec: a well-formed track URL starts here — the literal
prefix `https://open.spotify.com/track/` followed by at least one
non-whitespace, non-`'?'` character (spec section 4.3). -/
def specUrlAt (s : List Char) : Bool :=
  trackUrlLit.isPrefixOf s &&
    (match List.drop 31 s with
     | c :: _ => !(isPyWs c) && !(c = '?')
     | [] => false)

/-- Modelled from the spec: the number of positions of the message at which a
well-formed track URL starts. -/
def specUrlCount (msg : List Char) : Nat :=
  ((List.range msg.length).filter (fun i => specUrlAt (List.drop i msg))).length

/-- Modelled from the spec: the comma-joined `uris` value in which each id is
prefixed `spotify:track:` (spec section 4.4). -/
def urisSpecJoin : List String → String
  | [] => ""
  | [i] => "spotify:track:" ++ i
  | i :: rest => "spotify:track:" ++ i ++ "," ++ urisSpecJoin rest

/-- Helper for relating the source's fold to `urisSpecJoin`: the tail of the
join, one `,spotify:track:<id>` group per id. -/
def urisTail : List String → String
  | [] => ""
  | i :: rest => "," ++ "spotify:track:" ++ i ++ urisTail rest

/-! ## Structured messages for the extractor claims

`assemble segs tl` interleaves text chunks with track URLs:
`t₀ ++ lit ++ id₀ ++ t₁ ++ lit ++ id₁ ++ ⋯ ++ tl`.  `goodSegs` states the
conditions under which the code extracts exactly the listed ids: each text
chunk starts no regex match, each id is a non-empty run of non-`'?'`
non-`' '` characters not containing the literal, and each id is followed by
`'?'`, `' '` or the end of the message. -/

def assemble : List (List Char × List Char) → List Char → List Char
  | [], tl => tl
  | (t, id) :: rest, tl => t ++ (trackUrlLit ++ (id ++ assemble rest tl))

/-- No occurrence of the track-URL literal anywhere in `s`. -/
def noUrlLitOcc (s : List Char) : Bool :=
  (List.range s.length).all (fun i => !(trackUrlLit.isPrefixOf (List.drop i s)))

/-- An id the code will cut out exactly: non-empty, free of `'?'` and `' '`,
and free of the literal (so `str.replace` leaves it alone). -/
def goodId (id : List Char) : Bool :=
  !id.isEmpty && id.all (fun c => !(c = '?' || c = ' ')) && noUrlLitOcc id

/-- The first character (if any) stops the greedy run. -/
def headBreak : List Char → Bool
  | [] => true
  | c :: _ => c = '?' || c = ' '

/-- No regex match starts inside `t` when the message continues with `rest`. -/
def inertTo (t : List Char) (rest : List Char) : Bool :=
  (List.range t.length).all (fun i => (matchLen (List.drop i t ++ rest)).isNone)

def goodSegs : List (List Char × List Char) → List Char → Bool
  | [], tl => (List.range tl.length).all (fun i => (matchLen (List.drop i tl)).isNone)
  | (t, id) :: rest, tl =>
    inertTo t (trackUrlLit ++ (id ++ assemble rest tl)) && goodId id &&
      headBreak (assemble rest tl) && goodSegs rest tl

/-- The refresh request that `refresh_access_token(user)` posts to the token
endpoint. -/
def tokenRequest (u : User) : Request :=
  ⟨.post, SPOTIFY_TOKEN_URL, SPOTIFY_CLIENT_HEADER,
   some (.form [("grant_type", "refresh_token"), ("refresh_token", u.refresh_token)]), none⟩

/-! ## Concrete fixtures used by witnesses and counterexamples -/

/-- A response stream from a finite list (default: empty 200 response). -/
def respsOf (l : List HttpResponse) : Nat → HttpResponse :=
  fun n => l.getD n ⟨200, none⟩

/-- A fresh world: given responses, given user store, nothing issued yet. -/
def mkWorld (rs : Nat → HttpResponse) (us : List User) : World :=
  ⟨rs, 0, [], [], us, [], [], []⟩

def uA : User :=
  ⟨"uid1", "Alice", "alice@example.com", "https://open.spotify.com/user/uid1",
   "tokA", "refA", none⟩

def plA : Playlist :=
  ⟨"pl1", "Party", "https://open.spotify.com/playlist/pl1",
   "https://api.spotify.com/v1/playlists/pl1", "uid1"⟩

def epA : String := "https://api.spotify.com/v1/users/uid1/playlists"

def errBody : JVal := .jobj [("error", .jstr "The access token expired")]

def okBody : JVal := .jobj [("snapshot_id", .jstr "snap1")]

def tokBody : JVal := .jobj [("access_token", .jstr "tokB")]

/-- A token response that also rotates the refresh token. -/
def tokBodyRot : JVal :=
  .jobj [("access_token", .jstr "tokB"), ("refresh_token", .jstr "refNEW")]

/-- A complete create-playlist response body. -/
def plBody : JVal :=
  .jobj [("id", .jstr "pl1"),
         ("external_urls", .jobj [("spotify", .jstr "https://open.spotify.com/playlist/pl1")]),
         ("href", .jstr "https://api.spotify.com/v1/playlists/pl1"),
         ("owner", .jobj [("id", .jstr "uid1")])]

/-- A profile response body. -/
def profBody : JVal :=
  .jobj [("display_name", .jstr "Alice"), ("email", .jstr "alice@example.com"),
         ("external_urls", .jobj [("spotify", .jstr "https://open.spotify.com/user/uid1")]),
         ("id", .jstr "uid1")]

def authDataA : JVal :=
  .jobj [("access_token", .jstr "tokA"), ("refresh_token", .jstr "refA")]

def wC1cex : World :=
  mkWorld (respsOf [⟨401, some errBody⟩, ⟨200, some tokBody⟩, ⟨401, some errBody⟩]) []

def wC1wit : World :=
  mkWorld (respsOf [⟨401, some errBody⟩, ⟨200, some tokBody⟩, ⟨200, some okBody⟩]) []

def wC5cex : World := mkWorld (respsOf [⟨200, some tokBodyRot⟩]) [uA]

def wC5wit : World := mkWorld (respsOf [⟨200, some tokBody⟩]) [uA]

def wC6cex : World := mkWorld (respsOf [⟨500, some tokBody⟩]) [uA]

def wC6wit : World := mkWorld (respsOf [⟨400, some errBody⟩]) [uA]

def wTracks : World := mkWorld (respsOf [⟨200, some okBody⟩]) [uA]

def wC8cex : World := mkWorld (respsOf [⟨500, some plBody⟩]) [uA]

def wC8wit : World := mkWorld (respsOf [⟨400, some errBody⟩]) [uA]

def wC10 : World := mkWorld (respsOf [⟨200, some profBody⟩]) []

/-- The spec's worked example, decomposed into text chunks and track ids. -/
def specExampleSegs : List (List Char × List Char) :=
  [("check this out ".data, "3n3Ppam7vgaVa1iaRUc9Lp".data),
   ("?si=abc and this ".data, "7ouMYWpwJ422jRcDASZB7P".data)]

-- Sanity: the literal equals the string the source writes.
theorem trackUrlLit_eq_data : trackUrlLit = "https://open.spotify.com/track/".data := by
  decide

example :
    get_track_ids_from_message
      "check this out https://open.spotify.com/track/3n3Ppam7vgaVa1iaRUc9Lp?si=abc and this https://open.spotify.com/track/7ouMYWpwJ422jRcDASZB7P" =
      ["3n3Ppam7vgaVa1iaRUc9Lp", "7ouMYWpwJ422jRcDASZB7P"] := by
  decide

example : get_track_ids_from_message "https://open.spotify.com/track/ hello" = [""] := by
  decide

example :
    get_track_ids_from_message "https://open_spotify.com/track/x" =
      ["https://open_spotify.com/track/x"] := by
  decide

/-! ## Lemmas about the regex engine -/

theorem matchLit_shape :
    ∀ (ps : List (Option Char)) (s r : List Char), matchLit ps s = some r →
      ∃ pre, s = pre ++ r ∧ pre.length = ps.length := by
  intro ps
  induction ps with
  | nil =>
    intro s r h
    simp only [matchLit, Option.some.injEq] at h
    exact ⟨[], by simp [h], rfl⟩
  | cons p ps ih =>
    intro s r h
    cases s with
    | nil => simp [matchLit] at h
    | cons c cs =>
      cases p with
      | some a =>
        simp only [matchLit] at h
        by_cases hac : a = c
        · rw [if_pos hac] at h
          obtain ⟨pre, hpre, hlen⟩ := ih cs r h
          exact ⟨c :: pre, by simp [hpre], by simp [hlen]⟩
        · rw [if_neg hac] at h; cases h
      | none =>
        simp only [matchLit] at h
        by_cases hnl : c = '\n'
        · rw [if_pos hnl] at h; cases h
        · rw [if_neg hnl] at h
          obtain ⟨pre, hpre, hlen⟩ := ih cs r h
          exact ⟨c :: pre, by simp [hpre], by simp [hlen]⟩

theorem breakRun_shape :
    ∀ (l a b : List Char), breakRun l = (a, b) →
      l = a ++ b ∧ ∀ c ∈ a, ¬(c = '?' ∨ c = ' ') := by
  intro l
  induction l with
  | nil =>
    intro a b h
    simp only [breakRun, Prod.mk.injEq] at h
    simp [← h.1, ← h.2]
  | cons c cs ih =>
    intro a b h
    simp only [breakRun] at h
    by_cases hc : c = '?' ∨ c = ' '
    · rw [if_pos hc] at h
      simp only [Prod.mk.injEq] at h
      simp [← h.1, ← h.2]
    · rw [if_neg hc] at h
      simp only [Prod.mk.injEq] at h
      obtain ⟨ha, hb⟩ := h
      obtain ⟨hsplit, hgood⟩ := ih (breakRun cs).1 (breakRun cs).2 rfl
      subst ha hb
      constructor
      · simpa using hsplit
      · intro d hd
        rcases List.mem_cons.mp hd with h1 | h2
        · simpa [h1] using hc
        · exact hgood d h2

theorem breakRun_append :
    ∀ (id S : List Char), (∀ c ∈ id, ¬(c = '?' ∨ c = ' ')) → headBreak S = true →
      breakRun (id ++ S) = (id, S) := by
  intro id
  induction id with
  | nil =>
    intro S _ hS
    cases S with
    | nil => rfl
    | cons c cs =>
      simp only [headBreak] at hS
      simp only [List.nil_append, breakRun]
      rw [if_pos (by simpa using hS)]
  | cons c cs ih =>
    intro S hgood hS
    have hc : ¬(c = '?' ∨ c = ' ') := hgood c (List.mem_cons_self c cs)
    simp only [List.cons_append, breakRun]
    rw [if_neg hc]
    simp only [List.append_eq]
    rw [ih S (fun d hd => hgood d (List.mem_cons_of_mem c hd)) hS]

theorem matchLen_bounds :
    ∀ (s : List Char) (n : Nat), matchLen s = some n →
      31 ≤ n ∧ n ≤ s.length ∧
        ∀ c ∈ List.drop 30 (List.take n s), ¬(c = '?' ∨ c = ' ') := by
  intro s n h
  unfold matchLen at h
  cases hml : matchLit tmpl s with
  | none => simp [hml] at h
  | some rest =>
    rw [hml] at h
    dsimp only at h
    cases rest with
    | nil => simp at h
    | cons c cs =>
      dsimp only at h
      by_cases hc : c = '/'
      · rw [if_pos hc] at h
        simp only [Option.some.injEq] at h
        obtain ⟨pre, hpre, hplen⟩ := matchLit_shape tmpl s (c :: cs) hml
        have h30 : pre.length = 30 := by rw [hplen]; rfl
        obtain ⟨run, rem, hbr⟩ : ∃ run rem, breakRun (c :: cs) = (run, rem) :=
          ⟨(breakRun (c :: cs)).1, (breakRun (c :: cs)).2, rfl⟩
        obtain ⟨hsplit, hgood⟩ := breakRun_shape (c :: cs) run rem hbr
        rw [hbr] at h
        dsimp only at h
        have hcbad : ¬(c = '?' ∨ c = ' ') := by subst hc; decide
        have hrun1 : 1 ≤ run.length := by
          simp only [breakRun, if_neg hcbad, Prod.mk.injEq] at hbr
          rw [← hbr.1]
          simp
        have htake : List.take n s = pre ++ run := by
          rw [← h, hpre, hsplit, ← h30, List.take_append run.length, List.take_left]
        refine ⟨by omega, ?_, ?_⟩
        · have hslen : s.length = 30 + (run.length + rem.length) := by
            rw [hpre, hsplit]
            simp [h30]
          omega
        · intro d hd
          rw [htake, List.drop_left' h30] at hd
          exact hgood d hd
      · rw [if_neg hc] at h; cases h

theorem matchLen_pos :
    ∀ (s : List Char) (n : Nat), matchLen s = some n → 0 < n := by
  intro s n h
  have := matchLen_bounds s n h
  omega

theorem matchLit_tmpl_lit (x : List Char) :
    matchLit tmpl (trackUrlLit ++ x) = some ('/' :: x) := rfl

theorem matchLen_lit (id S : List Char) (hid : ∀ c ∈ id, ¬(c = '?' ∨ c = ' '))
    (hS : headBreak S = true) :
    matchLen (trackUrlLit ++ (id ++ S)) = some (31 + id.length) := by
  unfold matchLen
  rw [matchLit_tmpl_lit]
  dsimp only
  rw [if_pos rfl]
  have hbr : breakRun ('/' :: (id ++ S)) = ('/' :: id, S) := by
    simp only [breakRun]
    rw [if_neg (by decide), breakRun_append id S hid hS]
  rw [hbr]
  simp only [List.length_cons, Option.some.injEq]
  omega

theorem findallF_fuel :
    ∀ (f g : Nat) (s : List Char), s.length ≤ f → s.length ≤ g →
      findallF f s = findallF g s := by
  intro f
  induction f with
  | zero =>
    intro g s hf _
    have hs : s = [] := List.eq_nil_of_length_eq_zero (Nat.le_zero.mp hf)
    subst hs
    cases g <;> rfl
  | succ f ih =>
    intro g s hf hg
    cases s with
    | nil => cases g <;> rfl
    | cons c cs =>
      cases g with
      | zero => simp at hg
      | succ g =>
        simp only [findallF]
        cases hm : matchLen (c :: cs) with
        | none =>
          exact ih g cs (by simp at hf; omega) (by simp at hg; omega)
        | some n =>
          have hn := matchLen_pos _ _ hm
          dsimp only
          congr 1
          apply ih
          · rw [List.length_drop]; simp at hf ⊢; omega
          · rw [List.length_drop]; simp at hg ⊢; omega

theorem findall_cons_none {c : Char} {cs : List Char}
    (h : matchLen (c :: cs) = none) : findall (c :: cs) = findall cs := by
  unfold findall
  simp only [List.length_cons, findallF]
  rw [h]

theorem findall_some {s : List Char} {n : Nat} (h : matchLen s = some n) :
    findall s = List.take n s :: findall (List.drop n s) := by
  cases s with
  | nil =>
    have := matchLen_bounds _ _ h
    simp at this
    omega
  | cons c cs =>
    unfold findall
    simp only [List.length_cons, findallF]
    rw [h]
    dsimp only
    congr 1
    apply findallF_fuel
    · rw [List.length_drop]
      have := matchLen_pos _ _ h
      simp
      omega
    · exact Nat.le_refl _

theorem findall_nomatch :
    ∀ (s : List Char), (∀ i < s.length, matchLen (List.drop i s) = none) →
      findall s = [] := by
  intro s
  induction s with
  | nil => intro _; rfl
  | cons c cs ih =>
    intro h
    rw [findall_cons_none (by simpa using h 0 (by simp))]
    exact ih (fun i hi => by simpa using h (i + 1) (by simpa using hi))

theorem findall_append_inert :
    ∀ (t R : List Char), (∀ i < t.length, matchLen (List.drop i t ++ R) = none) →
      findall (t ++ R) = findall R := by
  intro t
  induction t with
  | nil => intro R _; rw [List.nil_append]
  | cons c cs ih =>
    intro R h
    have h0 : matchLen (c :: (cs ++ R)) = none := by simpa using h 0 (by simp)
    rw [List.cons_append, findall_cons_none h0]
    exact ih R (fun i hi => by simpa using h (i + 1) (by simpa using hi))

theorem findall_url_head (id S : List Char)
    (hid : ∀ c ∈ id, ¬(c = '?' ∨ c = ' ')) (hS : headBreak S = true) :
    findall (trackUrlLit ++ (id ++ S)) = (trackUrlLit ++ id) :: findall S := by
  have h31 : trackUrlLit.length = 31 := rfl
  rw [findall_some (matchLen_lit id S hid hS)]
  congr 1
  · rw [← h31, List.take_append id.length, List.take_left]
  · rw [← h31, List.drop_append id.length, List.drop_left]

/-! ## Lemmas about `str.replace` -/

theorem noUrlLitOcc_iff (s : List Char) :
    noUrlLitOcc s = true ↔
      ∀ i < s.length, trackUrlLit.isPrefixOf (List.drop i s) = false := by
  simp [noUrlLitOcc, List.all_eq_true, List.mem_range, Bool.not_eq_true']

theorem replaceAllF_fuel :
    ∀ (f g : Nat) (s : List Char), s.length ≤ f → s.length ≤ g →
      replaceAllF f s = replaceAllF g s := by
  intro f
  induction f with
  | zero =>
    intro g s hf _
    have hs : s = [] := List.eq_nil_of_length_eq_zero (Nat.le_zero.mp hf)
    subst hs
    cases g <;> rfl
  | succ f ih =>
    intro g s hf hg
    cases s with
    | nil => cases g <;> rfl
    | cons c cs =>
      cases g with
      | zero => simp at hg
      | succ g =>
        simp only [replaceAllF]
        by_cases hp : trackUrlLit.isPrefixOf (c :: cs) = true
        · rw [if_pos hp, if_pos hp]
          apply ih
          · rw [List.length_drop]; simp at hf ⊢; omega
          · rw [List.length_drop]; simp at hg ⊢; omega
        · rw [if_neg hp, if_neg hp]
          congr 1
          exact ih g cs (by simp at hf; omega) (by simp at hg; omega)

theorem replaceAll_cons_miss {c : Char} {cs : List Char}
    (h : trackUrlLit.isPrefixOf (c :: cs) = false) :
    replaceAll (c :: cs) = c :: replaceAll cs := by
  unfold replaceAll
  simp only [List.length_cons, replaceAllF]
  rw [if_neg (by simp [h])]

theorem replaceAll_step_hit {s : List Char}
    (h : trackUrlLit.isPrefixOf s = true) :
    replaceAll s = replaceAll (List.drop 31 s) := by
  cases s with
  | nil => simp [trackUrlLit, List.isPrefixOf] at h
  | cons c cs =>
    unfold replaceAll
    simp only [List.length_cons, replaceAllF]
    rw [if_pos h]
    apply replaceAllF_fuel
    · rw [List.length_drop]; simp only [List.length_cons]; omega
    · exact Nat.le_refl _

theorem replaceAll_no_occ : ∀ (s : List Char), noUrlLitOcc s = true → replaceAll s = s := by
  intro s
  induction s with
  | nil => intro _; rfl
  | cons c cs ih =>
    intro h
    rw [noUrlLitOcc_iff] at h
    have h0 : trackUrlLit.isPrefixOf (c :: cs) = false := by simpa using h 0 (by simp)
    rw [replaceAll_cons_miss h0]
    congr 1
    apply ih
    rw [noUrlLitOcc_iff]
    intro i hi
    simpa using h (i + 1) (by simpa using hi)

theorem replaceAll_lit (x : List Char) (hx : noUrlLitOcc x = true) :
    replaceAll (trackUrlLit ++ x) = x := by
  have hpf : trackUrlLit.isPrefixOf (trackUrlLit ++ x) = true := by
    rw [List.isPrefixOf_iff_prefix]
    exact List.prefix_append _ _
  rw [replaceAll_step_hit hpf, List.drop_left' (show trackUrlLit.length = 31 from rfl)]
  exact replaceAll_no_occ x hx

/-! ## The extractor on structured messages -/

/-- C4 (amended): the universal count claim holds for the pattern the code
actually matches, not the spec's: for every message assembled from text
chunks that start no regex match, alternating with track URLs whose ids are
non-empty runs of non-`'?'` non-`' '` characters that contain no embedded
occurrence of the literal prefix (`str.replace` deletes every occurrence,
so an id embedding the literal would be mangled) and are each followed by
`'?'`, `' '` or the end, the extractor returns exactly those ids, in order
of first appearance, preserving duplicates.  (On arbitrary "other text" the
claim as stated fails, since lookalike URLs also match — see the
counterexample.) -/
theorem C4_extract_amended :
    ∀ (segs : List (List Char × List Char)) (tl : List Char),
      goodSegs segs tl = true →
      get_track_ids_core (assemble segs tl) = segs.map Prod.snd := by
  intro segs
  induction segs with
  | nil =>
    intro tl h
    unfold get_track_ids_core
    rw [findall_nomatch]
    · rfl
    · intro i hi
      have h2 : ∀ i < tl.length, (matchLen (List.drop i tl)).isNone = true := by
        simpa [goodSegs, List.all_eq_true, List.mem_range] using h
      exact Option.isNone_iff_eq_none.mp (h2 i hi)
  | cons seg rest ih =>
    obtain ⟨t, id⟩ := seg
    intro tl h
    simp only [goodSegs, Bool.and_eq_true] at h
    obtain ⟨⟨⟨hinert, hgid⟩, hbrk⟩, hrest⟩ := h
    simp only [goodId, Bool.and_eq_true, List.all_eq_true] at hgid
    obtain ⟨⟨hne, hchars⟩, hnocc⟩ := hgid
    have hid : ∀ c ∈ id, ¬(c = '?' ∨ c = ' ') := by
      intro c hc
      have := hchars c hc
      simp at this
      simpa using this
    have hinert2 :
        ∀ i < t.length,
          matchLen (List.drop i t ++ (trackUrlLit ++ (id ++ assemble rest tl))) = none := by
      intro i hi
      have h2 : ∀ i < t.length,
          (matchLen (List.drop i t ++ (trackUrlLit ++ (id ++ assemble rest tl)))).isNone = true := by
        simpa [inertTo, List.all_eq_true, List.mem_range] using hinert
      exact Option.isNone_iff_eq_none.mp (h2 i hi)
    show get_track_ids_core (t ++ (trackUrlLit ++ (id ++ assemble rest tl))) = _
    unfold get_track_ids_core
    rw [findall_append_inert t _ hinert2, findall_url_head id (assemble rest tl) hid hbrk,
      List.map_cons, replaceAll_lit id hnocc]
    congr 1
    exact ih tl hrest

/-! ## The shape of every match -/

theorem findallF_mem_shape :
    ∀ (f : Nat) (s : List Char), s.length ≤ f →
      ∀ m ∈ findallF f s, ∃ n s2, matchLen s2 = some n ∧ m = List.take n s2 := by
  intro f
  induction f with
  | zero => intro s _ m hm; simp [findallF] at hm
  | succ f ih =>
    intro s hf m hm
    cases s with
    | nil => simp [findallF] at hm
    | cons c cs =>
      simp only [findallF] at hm
      cases hml : matchLen (c :: cs) with
      | none =>
        rw [hml] at hm
        exact ih cs (by simp at hf; omega) m hm
      | some n =>
        rw [hml] at hm
        rcases List.mem_cons.mp hm with h1 | h2
        · exact ⟨n, c :: cs, hml, h1⟩
        · have hn := matchLen_pos _ _ hml
          apply ih (List.drop n (c :: cs)) _ m h2
          rw [List.length_drop]
          simp at hf ⊢
          omega

theorem findall_mem_shape {s m : List Char} (hm : m ∈ findall s) :
    ∃ n s2, matchLen s2 = some n ∧ m = List.take n s2 :=
  findallF_mem_shape s.length s (Nat.le_refl _) m hm

/-! ## The comma-joined uris value -/

theorem uris_fold (ts : List String) :
    ∀ acc : String,
      ts.foldl (fun acc tid => acc ++ "," ++ "spotify:track:" ++ tid) acc =
        acc ++ urisTail ts := by
  induction ts with
  | nil => intro acc; simp [urisTail]
  | cons t ts ih =>
    intro acc
    simp only [List.foldl_cons, urisTail]
    rw [ih]
    simp [String.append_assoc]

theorem urisSpecJoin_cons :
    ∀ (rest : List String) (i : String),
      urisSpecJoin (i :: rest) = "spotify:track:" ++ i ++ urisTail rest := by
  intro rest
  induction rest with
  | nil => intro i; simp [urisSpecJoin, urisTail]
  | cons r rs ih =>
    intro i
    show "spotify:track:" ++ i ++ "," ++ urisSpecJoin (r :: rs) = _
    rw [ih r]
    simp only [urisTail, String.append_assoc]

/-- The fold in `add_tracks_to_playlist` computes exactly the spec's
comma-joined `uris` value. -/
theorem uris_code_eq_spec (first : String) (rest : List String) :
    rest.foldl (fun acc tid => acc ++ "," ++ "spotify:track:" ++ tid)
        ("spotify:track:" ++ first) =
      urisSpecJoin (first :: rest) := by
  rw [uris_fold, urisSpecJoin_cons]

/-! ## Characterizations of the stateful operations -/

/-- `refresh_access_token` as one equation: the parse of the next oracle
response decides between the error path (request traced, nothing persisted)
and the success path (access token overwritten, one commit). -/
theorem refresh_spec (u : User) (w : World) :
    refresh_access_token u w =
      (match tokenOf (w.resps w.nextResp) with
       | .error e => .error e
       | .ok t => .ok { u with access_token := t },
       match tokenOf (w.resps w.nextResp) with
       | .error _ =>
         { w with nextResp := w.nextResp + 1, trace := w.trace ++ [tokenRequest u] }
       | .ok t =>
         session_commit (session_add (.euser { u with access_token := t })
           { w with nextResp := w.nextResp + 1, trace := w.trace ++ [tokenRequest u] })) := by
  unfold refresh_access_token doRequest tokenOf tokenRequest
  dsimp only
  cases json_loads (w.resps w.nextResp).text with
  | error e => rfl
  | ok d =>
    dsimp only
    cases dictGet d "access_token" with
    | error e => rfl
    | ok v =>
      dsimp only
      cases getStr v with
      | error e => rfl
      | ok t => rfl

theorem json_loads_err {o : Option JVal} {e : PyErr}
    (h : json_loads o = .error e) : e = .jsonError := by
  cases o with
  | none => unfold json_loads at h; injection h with h2; exact h2.symm
  | some v => unfold json_loads at h; cases h

theorem dictGet_err {j : JVal} {k : String} {e : PyErr}
    (h : dictGet j k = .error e) : e = .keyError k ∨ e = .typeErr := by
  cases j with
  | jstr s => unfold dictGet at h; injection h with h2; exact Or.inr h2.symm
  | jbool b => unfold dictGet at h; injection h with h2; exact Or.inr h2.symm
  | jobj fs =>
    unfold dictGet at h
    dsimp only at h
    cases hl : lookupField fs k with
    | some v => rw [hl] at h; cases h
    | none => rw [hl] at h; injection h with h2; exact Or.inl h2.symm

theorem getStr_err {j : JVal} {e : PyErr} (h : getStr j = .error e) :
    e = .typeErr := by
  cases j <;> unfold getStr at h
  · cases h
  · injection h with h2; exact h2.symm
  · injection h with h2; exact h2.symm

theorem tokenOf_err_shape {r : HttpResponse} {e : PyErr}
    (h : tokenOf r = .error e) :
    e = .jsonError ∨ (∃ k, e = .keyError k) ∨ e = .typeErr := by
  unfold tokenOf at h
  cases hj : json_loads r.text with
  | error e2 =>
    rw [hj] at h
    injection h with h2
    subst h2
    exact Or.inl (json_loads_err hj)
  | ok d =>
    rw [hj] at h
    dsimp only at h
    cases hd : dictGet d "access_token" with
    | error e2 =>
      rw [hd] at h
      injection h with h2
      subst h2
      rcases dictGet_err hd with h3 | h3
      · exact Or.inr (Or.inl ⟨_, h3⟩)
      · exact Or.inr (Or.inr h3)
    | ok v =>
      rw [hd] at h
      dsimp only at h
      exact Or.inr (Or.inr (getStr_err h))

/-- The executor off the 401 path: one POST, body parsed and returned,
nothing persisted. -/
theorem mac_not401 (u : User) (ep : String) (d : Option ReqBody)
    (p : Option (List (String × String))) (w : World)
    (h : ¬(w.resps w.nextResp).status_code = 401) :
    make_authorized_api_call u ep d p w =
      (json_loads (w.resps w.nextResp).text,
       { w with
         apiCalls := w.apiCalls ++ [⟨u, ep, d, p⟩],
         nextResp := w.nextResp + 1,
         trace := w.trace ++ [⟨.post, ep, u.auth_header, d, p⟩] }) := by
  unfold make_authorized_api_call doRequest
  dsimp only
  rw [if_neg h]

/-- The executor on a 401 whose refresh fails: the refresh error propagates,
no reissue. -/
theorem mac_401_refresh_err (u : User) (ep : String) (d : Option ReqBody)
    (p : Option (List (String × String))) (w : World) (e : PyErr)
    (h : (w.resps w.nextResp).status_code = 401)
    (he : tokenOf (w.resps (w.nextResp + 1)) = .error e) :
    make_authorized_api_call u ep d p w =
      (.error e,
       { w with
         apiCalls := w.apiCalls ++ [⟨u, ep, d, p⟩],
         nextResp := w.nextResp + 2,
         trace := w.trace ++ [⟨.post, ep, u.auth_header, d, p⟩, tokenRequest u] }) := by
  unfold make_authorized_api_call doRequest
  dsimp only
  rw [if_pos h, refresh_spec]
  dsimp only
  rw [he]
  dsimp only
  congr 1
  simp [List.append_assoc]

/-- The executor on a 401 whose refresh succeeds: the identical request is
reissued once with the refreshed bearer token, and the parsed body of the
second response is returned whatever its status; the refreshed user is
committed once. -/
theorem mac_401_refresh_ok (u : User) (ep : String) (d : Option ReqBody)
    (p : Option (List (String × String))) (w : World) (t : String)
    (h : (w.resps w.nextResp).status_code = 401)
    (ht : tokenOf (w.resps (w.nextResp + 1)) = .ok t)
    (hp : w.pending = []) :
    make_authorized_api_call u ep d p w =
      (json_loads (w.resps (w.nextResp + 2)).text,
       { resps := w.resps,
         nextResp := w.nextResp + 3,
         trace := w.trace ++
           [⟨.post, ep, u.auth_header, d, p⟩, tokenRequest u,
            ⟨.post, ep, User.auth_header { u with access_token := t }, d, p⟩],
         apiCalls := w.apiCalls ++ [⟨u, ep, d, p⟩],
         users := upsertUser w.users { u with access_token := t },
         playlists := w.playlists,
         pending := [],
         commits := w.commits ++ [[.euser { u with access_token := t }]] }) := by
  unfold make_authorized_api_call doRequest
  dsimp only
  rw [if_pos h, refresh_spec]
  dsimp only
  rw [ht]
  dsimp only [session_add, session_commit]
  rw [hp]
  dsimp only [List.nil_append, List.foldl]
  congr 1
  simp [List.append_assoc]

/-- Every invocation of the executor records exactly one (ghost) api call. -/
theorem mac_apiCalls (u : User) (ep : String) (d : Option ReqBody)
    (p : Option (List (String × String))) (w : World) :
    (make_authorized_api_call u ep d p w).2.apiCalls =
      w.apiCalls ++ [⟨u, ep, d, p⟩] := by
  unfold make_authorized_api_call doRequest
  dsimp only
  by_cases h : (w.resps w.nextResp).status_code = 401
  · rw [if_pos h, refresh_spec]
    dsimp only
    cases tokenOf (w.resps (w.nextResp + 1)) with
    | error e => rfl
    | ok t => simp [session_add, session_commit]
  · rw [if_neg h]

/-- The executor never raises `IndexError` or `AttributeError`. -/
theorem mac_err_shape (u : User) (ep : String) (d : Option ReqBody)
    (p : Option (List (String × String))) (w : World) (e : PyErr)
    (h : (make_authorized_api_call u ep d p w).1 = .error e) :
    e = .jsonError ∨ (∃ k, e = .keyError k) ∨ e = .typeErr := by
  unfold make_authorized_api_call doRequest at h
  dsimp only at h
  by_cases h4 : (w.resps w.nextResp).status_code = 401
  · rw [if_pos h4, refresh_spec] at h
    dsimp only at h
    cases htok : tokenOf (w.resps (w.nextResp + 1)) with
    | error e2 =>
      rw [htok] at h
      dsimp only at h
      injection h with h2
      subst h2
      exact tokenOf_err_shape htok
    | ok t =>
      rw [htok] at h
      dsimp only at h
      exact Or.inl (json_loads_err h)
  · rw [if_neg h4] at h
    dsimp only at h
    exact Or.inl (json_loads_err h)


/-! ## Claim C1: the executor's 401 handling -/

/-- C1 (counterexample): with a provider returning 401, a successful refresh,
and 401 again, the reissued request "fails authorization" yet
`make_authorized_api_call` does not fail — it returns the parsed 401 error
body as a normal result, contradicting "the call fails with ProviderError". -/
theorem C1_counterexample :
    (wC1cex.resps 0).status_code = 401 ∧
    (wC1cex.resps 2).status_code = 401 ∧
    tokenOf (wC1cex.resps 1) = .ok "tokB" ∧
    (make_authorized_api_call uA epA none none wC1cex).1 = .ok errBody :=
  ⟨rfl, rfl, rfl, rfl⟩

/-- C1 (amended): if the first response is 401, `refresh` is invoked exactly
once (one token-endpoint request in the trace).  If the refresh succeeds the
identical request (same endpoint, body, params) is reissued exactly once
with the refreshed bearer token, with no further retries, and the parsed
body of the second response is returned whatever its status — the call fails
only if that body is unparsable.  If the refresh fails, its error propagates
and no reissue happens. -/
theorem C1_executor_amended (u : User) (ep : String) (d : Option ReqBody)
    (p : Option (List (String × String))) (w : World)
    (h401 : (w.resps w.nextResp).status_code = 401) (hp : w.pending = []) :
    (∀ t, tokenOf (w.resps (w.nextResp + 1)) = .ok t →
      (make_authorized_api_call u ep d p w).2.trace =
        w.trace ++ [⟨.post, ep, u.auth_header, d, p⟩, tokenRequest u,
          ⟨.post, ep, User.auth_header { u with access_token := t }, d, p⟩] ∧
      (make_authorized_api_call u ep d p w).1 =
        json_loads (w.resps (w.nextResp + 2)).text) ∧
    (∀ e, tokenOf (w.resps (w.nextResp + 1)) = .error e →
      (make_authorized_api_call u ep d p w).2.trace =
        w.trace ++ [⟨.post, ep, u.auth_header, d, p⟩, tokenRequest u] ∧
      (make_authorized_api_call u ep d p w).1 = .error e) := by
  constructor
  · intro t ht
    rw [mac_401_refresh_ok u ep d p w t h401 ht hp]
    exact ⟨rfl, rfl⟩
  · intro e he
    rw [mac_401_refresh_err u ep d p w e h401 he]
    exact ⟨rfl, rfl⟩

theorem C1_executor_amended_witness :
    (wC1wit.resps wC1wit.nextResp).status_code = 401 ∧ wC1wit.pending = [] ∧
    tokenOf (wC1wit.resps (wC1wit.nextResp + 1)) = .ok "tokB" ∧
    ((make_authorized_api_call uA epA none none wC1wit).2.trace =
      wC1wit.trace ++ [⟨.post, epA, uA.auth_header, none, none⟩, tokenRequest uA,
        ⟨.post, epA, User.auth_header { uA with access_token := "tokB" }, none, none⟩] ∧
     (make_authorized_api_call uA epA none none wC1wit).1 =
      json_loads (wC1wit.resps (wC1wit.nextResp + 2)).text) :=
  ⟨rfl, rfl, rfl,
    (C1_executor_amended uA epA none none wC1wit rfl rfl).1 "tokB" rfl⟩

/-! ## Claim C2: zero track URLs -/

/-- C2 (counterexample): a message that contains zero well-formed track URLs
in the spec's sense (the literal prefix followed by at least one
non-whitespace non-`'?'` character occurs nowhere) on which the code still
returns a non-empty result, because the regex wildcards also match
`open_spotify`. -/
theorem C2_counterexample :
    specUrlCount "https://open_spotify.com/track/x".data = 0 ∧
    get_track_ids_from_message "https://open_spotify.com/track/x" =
      ["https://open_spotify.com/track/x"] ∧
    get_track_ids_from_message "https://open_spotify.com/track/x" ≠ [] := by
  refine ⟨by decide, by decide, by decide⟩

/-- C2 (amended): the empty-result guarantee holds for the pattern the code
actually matches: if no position of the message starts a regex match
(wildcard dots, one-or-more slashes, possibly-empty suffix), the extractor
returns the empty sequence. -/
theorem C2_no_match_amended (msg : List Char)
    (h : ∀ i < msg.length, matchLen (List.drop i msg) = none) :
    get_track_ids_core msg = [] := by
  unfold get_track_ids_core
  rw [findall_nomatch msg h]
  rfl

theorem C2_no_match_amended_witness :
    (∀ i < ("no links here".data).length,
      matchLen (List.drop i "no links here".data) = none) ∧
    get_track_ids_core "no links here".data = [] :=
  ⟨by decide, C2_no_match_amended _ (by decide)⟩

/-! ## Claim C3: the shape of each returned id -/

/-- C3 (counterexample): a returned id may be empty (a bare prefix matches,
since the suffix is `[^? ]*`, zero or more) and may contain whitespace other
than `' '` (a tab does not stop the run), contradicting "one or more
non-whitespace characters". -/
theorem C3_counterexample :
    get_track_ids_core
        "https://open.spotify.com/track/a\tb https://open.spotify.com/track/".data =
      [['a', '\t', 'b'], []] ∧
    ([] : List Char) ∈ get_track_ids_core
        "https://open.spotify.com/track/a\tb https://open.spotify.com/track/".data ∧
    '\t' ∈ (['a', '\t', 'b'] : List Char) ∧ isPyWs '\t' = true := by
  refine ⟨by decide, by decide, by decide, by decide⟩

/-- C3 (amended): every returned element comes from a regex match `m` (at
least 31 characters, whose part after the 30-character template contains no
`'?'` and no `' '` — so it is truncated at the first `'?'` or space, not at
arbitrary whitespace) by deleting all occurrences of the literal prefix; in
particular, when `m` starts with the literal prefix and the prefix does not
reoccur, the element is exactly the possibly-empty suffix after the
prefix. -/
theorem C3_ids_amended (msg id : List Char) (h : id ∈ get_track_ids_core msg) :
    ∃ m, m ∈ findall msg ∧ id = replaceAll m ∧ 31 ≤ m.length ∧
      (∀ c ∈ List.drop 30 m, ¬(c = '?' ∨ c = ' ')) ∧
      (trackUrlLit.isPrefixOf m = true → noUrlLitOcc (List.drop 31 m) = true →
        id = List.drop 31 m) := by
  unfold get_track_ids_core at h
  rcases List.mem_map.mp h with ⟨m, hm, hid⟩
  obtain ⟨n, s2, hml, hms⟩ := findall_mem_shape hm
  have hb := matchLen_bounds s2 n hml
  refine ⟨m, hm, hid.symm, ?_, ?_, ?_⟩
  · rw [hms, List.length_take]
    omega
  · intro c hc
    apply hb.2.2
    rw [← hms]
    exact hc
  · intro hpf hocc
    obtain ⟨tail2, htail⟩ := List.isPrefixOf_iff_prefix.mp hpf
    have hdrop : List.drop 31 m = tail2 := by
      rw [← htail, List.drop_left' (show trackUrlLit.length = 31 from rfl)]
    rw [hdrop] at hocc ⊢
    rw [← hid, ← htail]
    exact replaceAll_lit tail2 hocc

theorem C3_ids_amended_witness :
    ("abc".data ∈ get_track_ids_core "see https://open.spotify.com/track/abc ok".data) ∧
    (∃ m, m ∈ findall "see https://open.spotify.com/track/abc ok".data ∧
      "abc".data = replaceAll m ∧ 31 ≤ m.length ∧
      (∀ c ∈ List.drop 30 m, ¬(c = '?' ∨ c = ' ')) ∧
      (trackUrlLit.isPrefixOf m = true → noUrlLitOcc (List.drop 31 m) = true →
        "abc".data = List.drop 31 m)) :=
  ⟨by decide, C3_ids_amended _ _ (by decide)⟩

/-! ## Claim C4: counting and ordering (the amended theorem is stated
earlier, among the extractor lemmas) -/

/-- C4 (counterexample): a message with exactly one well-formed track URL in
the spec's sense, interspersed with other text, for which the extractor
returns two ids — the "other text" contains a lookalike URL
(`open-spotify`) that the regex wildcards also match. -/
theorem C4_counterexample :
    specUrlCount
        "x https://open.spotify.com/track/abc y https://open-spotify.com/track/zzz".data = 1 ∧
    (get_track_ids_from_message
        "x https://open.spotify.com/track/abc y https://open-spotify.com/track/zzz").length = 2 := by
  refine ⟨by decide, by decide⟩

theorem C4_extract_amended_witness :
    goodSegs specExampleSegs [] = true ∧
    assemble specExampleSegs [] =
      "check this out https://open.spotify.com/track/3n3Ppam7vgaVa1iaRUc9Lp?si=abc and this https://open.spotify.com/track/7ouMYWpwJ422jRcDASZB7P".data ∧
    get_track_ids_core (assemble specExampleSegs []) =
      ["3n3Ppam7vgaVa1iaRUc9Lp".data, "7ouMYWpwJ422jRcDASZB7P".data] :=
  ⟨by decide, by decide, by
    rw [C4_extract_amended specExampleSegs [] (by decide)]
    decide⟩

/-! ## Claim C5: a successful refresh -/

/-- C5 (counterexample): the provider's response carries a rotated
`refresh_token`, but `refresh_access_token` never reads that field — the
stored refresh token stays the original, contradicting "in which case the
new one is stored". -/
theorem C5_counterexample :
    dictGet tokBodyRot "refresh_token" = .ok (.jstr "refNEW") ∧
    (refresh_access_token uA wC5cex).1 = .ok { uA with access_token := "tokB" } ∧
    ({ uA with access_token := "tokB" } : User).refresh_token = "refA" ∧
    (refresh_access_token uA wC5cex).2.users = [{ uA with access_token := "tokB" }] ∧
    ("refA" : String) ≠ "refNEW" :=
  ⟨rfl, rfl, rfl, rfl, by decide⟩

/-- C5 (amended): a successful refresh overwrites the user's access token
with the provider's new one, persists the updated user exactly once (one
commit containing exactly that user), and always keeps the original
refresh token — a rotated refresh token in the response is ignored; all
other fields are unchanged. -/
theorem C5_refresh_amended (u : User) (w : World) (t : String)
    (hp : w.pending = []) (ht : tokenOf (w.resps w.nextResp) = .ok t) :
    (refresh_access_token u w).1 = .ok { u with access_token := t } ∧
    (refresh_access_token u w).2.users =
      upsertUser w.users { u with access_token := t } ∧
    (refresh_access_token u w).2.commits =
      w.commits ++ [[.euser { u with access_token := t }]] ∧
    ({ u with access_token := t } : User).refresh_token = u.refresh_token ∧
    ({ u with access_token := t } : User).id = u.id ∧
    ({ u with access_token := t } : User).display_name = u.display_name ∧
    ({ u with access_token := t } : User).email = u.email ∧
    ({ u with access_token := t } : User).url = u.url ∧
    ({ u with access_token := t } : User).active_playlist_id = u.active_playlist_id := by
  rw [refresh_spec]
  dsimp only
  rw [ht]
  dsimp only [session_add, session_commit]
  rw [hp]
  exact ⟨rfl, rfl, rfl, rfl, rfl, rfl, rfl, rfl, rfl⟩

theorem C5_refresh_amended_witness :
    wC5wit.pending = [] ∧
    tokenOf (wC5wit.resps wC5wit.nextResp) = .ok "tokB" ∧
    ((refresh_access_token uA wC5wit).1 = .ok { uA with access_token := "tokB" } ∧
     (refresh_access_token uA wC5wit).2.users =
       upsertUser wC5wit.users { uA with access_token := "tokB" } ∧
     (refresh_access_token uA wC5wit).2.commits =
       wC5wit.commits ++ [[.euser { uA with access_token := "tokB" }]] ∧
     ({ uA with access_token := "tokB" } : User).refresh_token = uA.refresh_token ∧
     ({ uA with access_token := "tokB" } : User).id = uA.id ∧
     ({ uA with access_token := "tokB" } : User).display_name = uA.display_name ∧
     ({ uA with access_token := "tokB" } : User).email = uA.email ∧
     ({ uA with access_token := "tokB" } : User).url = uA.url ∧
     ({ uA with access_token := "tokB" } : User).active_playlist_id = uA.active_playlist_id) :=
  ⟨rfl, rfl, C5_refresh_amended uA wC5wit "tokB" rfl rfl⟩

/-! ## Claim C6: a failed refresh -/

/-- C6 (counterexample): `refresh_access_token` never inspects the status
code.  A non-success (500) response whose body still carries an
`access_token` makes the refresh succeed and write the store, contradicting
"fails with ProviderError and leaves the stored tokens unchanged". -/
theorem C6_counterexample :
    (wC6cex.resps 0).status_code = 500 ∧
    (refresh_access_token uA wC6cex).1 = .ok { uA with access_token := "tokB" } ∧
    (refresh_access_token uA wC6cex).2.commits =
      [[.euser { uA with access_token := "tokB" }]] ∧
    (refresh_access_token uA wC6cex).2.users ≠ wC6cex.users := by
  refine ⟨rfl, rfl, rfl, by decide⟩

/-- C6 (amended): the failure the code actually detects is a body failure —
unparsable JSON, a missing `access_token` field, or a non-string value.  In
that case the refresh raises, and the stores, pending session and commit
history are all unchanged (no persistence write occurs). -/
theorem C6_refresh_fail_amended (u : User) (w : World) (e : PyErr)
    (he : tokenOf (w.resps w.nextResp) = .error e) :
    (refresh_access_token u w).1 = .error e ∧
    (refresh_access_token u w).2.users = w.users ∧
    (refresh_access_token u w).2.playlists = w.playlists ∧
    (refresh_access_token u w).2.commits = w.commits ∧
    (refresh_access_token u w).2.pending = w.pending := by
  rw [refresh_spec]
  dsimp only
  rw [he]
  exact ⟨rfl, rfl, rfl, rfl, rfl⟩

theorem C6_refresh_fail_amended_witness :
    tokenOf (wC6wit.resps wC6wit.nextResp) = .error (.keyError "access_token") ∧
    ((refresh_access_token uA wC6wit).1 = .error (.keyError "access_token") ∧
     (refresh_access_token uA wC6wit).2.users = wC6wit.users ∧
     (refresh_access_token uA wC6wit).2.playlists = wC6wit.playlists ∧
     (refresh_access_token uA wC6wit).2.commits = wC6wit.commits ∧
     (refresh_access_token uA wC6wit).2.pending = wC6wit.pending) :=
  ⟨rfl, C6_refresh_fail_amended uA wC6wit (.keyError "access_token") rfl⟩

/-! ## Claim C7: the add-tracks request -/

/-- C7: for every playlist and non-empty id sequence, `add_tracks_to_playlist`
invokes the authorized executor exactly once, with the playlist owner's
credentials, against `playlist.endpoint ++ "/tracks"`, with no body and a
single query parameter `uris` equal to the spec's comma-joined value in
which each id is prefixed `spotify:track:` in input order. -/
theorem C7_add_tracks (pl : Playlist) (ids : List String) (w : World)
    (owner : User) (first : String) (rest : List String)
    (hids : ids = first :: rest)
    (hown : w.users.find? (fun v => v.id = pl.owner_id) = some owner) :
    (add_tracks_to_playlist pl ids w).2.apiCalls =
      w.apiCalls ++ [⟨owner, pl.endpoint ++ "/tracks", none,
        some [("uris", urisSpecJoin ids)]⟩] := by
  subst hids
  unfold add_tracks_to_playlist
  rw [hown]
  dsimp only
  rw [uris_code_eq_spec]
  have hA := mac_apiCalls owner (pl.endpoint ++ "/tracks") none
    (some [("uris", urisSpecJoin (first :: rest))]) w
  cases hmac : make_authorized_api_call owner (pl.endpoint ++ "/tracks") none
      (some [("uris", urisSpecJoin (first :: rest))]) w with
  | mk r w1 =>
    rw [hmac] at hA
    cases r with
    | error e => exact hA
    | ok v => exact hA

theorem C7_add_tracks_witness :
    (["a", "b", "c"] : List String) = "a" :: ["b", "c"] ∧
    wTracks.users.find? (fun v => v.id = plA.owner_id) = some uA ∧
    urisSpecJoin ["a", "b", "c"] = "spotify:track:a,spotify:track:b,spotify:track:c" ∧
    (add_tracks_to_playlist plA ["a", "b", "c"] wTracks).2.apiCalls =
      wTracks.apiCalls ++ [⟨uA, plA.endpoint ++ "/tracks", none,
        some [("uris", urisSpecJoin ["a", "b", "c"])]⟩] :=
  ⟨rfl, rfl, rfl, C7_add_tracks plA _ wTracks uA "a" ["b", "c"] rfl rfl⟩

/-! ## Claim C8: no partial persistence on a failed create -/

/-- The executor's effect on the stores: playlists never change, the pending
session stays flushed, and the commit history either is untouched or gains
exactly the one token-refresh write of the caller. -/
theorem mac_world_shape (u : User) (ep : String) (d : Option ReqBody)
    (p : Option (List (String × String))) (w : World) (hp : w.pending = []) :
    (make_authorized_api_call u ep d p w).2.playlists = w.playlists ∧
    (make_authorized_api_call u ep d p w).2.pending = [] ∧
    ((make_authorized_api_call u ep d p w).2.commits = w.commits ∨
      ∃ t, (make_authorized_api_call u ep d p w).2.commits =
        w.commits ++ [[.euser { u with access_token := t }]]) := by
  by_cases h : (w.resps w.nextResp).status_code = 401
  · cases htok : tokenOf (w.resps (w.nextResp + 1)) with
    | error e =>
      rw [mac_401_refresh_err u ep d p w e h htok]
      exact ⟨rfl, hp, Or.inl rfl⟩
    | ok t =>
      rw [mac_401_refresh_ok u ep d p w t h htok hp]
      exact ⟨rfl, rfl, Or.inr ⟨t, rfl⟩⟩
  · rw [mac_not401 u ep d p w h]
    exact ⟨rfl, hp, Or.inl rfl⟩

/-- C8 (counterexample): `create_playlist` never inspects the status code.
A non-success (500) response whose body still carries all the consumed
fields makes the creation succeed and persist a Playlist record plus the
user's `active_playlist_id`, contradicting "fails and performs no
persistence if the API call fails (non-success response)". -/
theorem C8_counterexample :
    (wC8cex.resps 0).status_code = 500 ∧
    (create_playlist uA "Party" wC8cex).1 = .ok plA ∧
    (create_playlist uA "Party" wC8cex).2.playlists = [plA] ∧
    (create_playlist uA "Party" wC8cex).2.commits =
      [[.eplaylist plA, .euser { uA with active_playlist_id := some "pl1" }]] :=
  ⟨rfl, rfl, rfl, rfl⟩

/-- C8 (amended): when `create_playlist` fails — which happens exactly when
a field is missing from the parsed body (or the executor itself raised) —
no Playlist is persisted: the playlist store is unchanged and any new commit
is only the 401-refresh user write, which touches `access_token` alone (in
particular `active_playlist_id` keeps its old value). -/
theorem C8_create_fail_amended (u : User) (title : String) (w : World)
    (e : PyErr) (hp : w.pending = [])
    (herr : (create_playlist u title w).1 = .error e) :
    (create_playlist u title w).2.playlists = w.playlists ∧
    ((create_playlist u title w).2.commits = w.commits ∨
      ∃ t, (create_playlist u title w).2.commits =
        w.commits ++ [[.euser { u with access_token := t }]]) := by
  unfold create_playlist at herr ⊢
  dsimp only at herr ⊢
  have hw := mac_world_shape u (SPOTIFY_API_URL ++ "/users/" ++ u.id ++ "/playlists")
    (some (ReqBody.raw (.jobj
      [("name", .jstr title), ("description", .jstr "Spotify SMS Playlist"),
       ("public", .jbool false), ("collaborative", .jbool true)]))) none w hp
  cases hmac : make_authorized_api_call u
      (SPOTIFY_API_URL ++ "/users/" ++ u.id ++ "/playlists")
      (some (ReqBody.raw (.jobj
        [("name", .jstr title), ("description", .jstr "Spotify SMS Playlist"),
         ("public", .jbool false), ("collaborative", .jbool true)]))) none w with
  | mk r w1 =>
    rw [hmac] at hw herr
    cases r with
    | error e2 =>
      dsimp only at herr ⊢
      exact ⟨hw.1, hw.2.2⟩
    | ok body =>
      dsimp only at herr ⊢
      cases hextr : extractPlaylistFields body title with
      | error e2 =>
        dsimp only at herr ⊢
        exact ⟨hw.1, hw.2.2⟩
      | ok pl =>
        try rw [hextr] at herr
        simp at herr

theorem C8_create_fail_amended_witness :
    wC8wit.pending = [] ∧
    (create_playlist uA "Party" wC8wit).1 = .error (.keyError "id") ∧
    ((create_playlist uA "Party" wC8wit).2.playlists = wC8wit.playlists ∧
     ((create_playlist uA "Party" wC8wit).2.commits = wC8wit.commits ∨
       ∃ t, (create_playlist uA "Party" wC8wit).2.commits =
         wC8wit.commits ++ [[.euser { uA with access_token := t }]])) :=
  ⟨rfl, rfl, C8_create_fail_amended uA "Party" wC8wit (.keyError "id") rfl rfl⟩

/-! ## Claim C9: the non-empty precondition of add-tracks -/

/-- C9: with the playlist's owner resolvable, the empty id sequence is
erroneous — `track_ids[0]` raises `IndexError` before any request is made
and the world is untouched — while for a non-empty sequence the indexing is
safe: whatever error the operation may raise is never `IndexError`. -/
theorem C9_nonempty_guard (pl : Playlist) (ids : List String) (w : World)
    (owner : User)
    (hown : w.users.find? (fun v => v.id = pl.owner_id) = some owner) :
    (ids = [] → add_tracks_to_playlist pl ids w = (.error .indexError, w)) ∧
    (ids ≠ [] → ∀ e, (add_tracks_to_playlist pl ids w).1 = .error e →
      e ≠ .indexError) := by
  constructor
  · intro h
    subst h
    unfold add_tracks_to_playlist
    rw [hown]
  · intro hne e herr
    cases ids with
    | nil => exact absurd rfl hne
    | cons first rest =>
      unfold add_tracks_to_playlist at herr
      rw [hown] at herr
      dsimp only at herr
      have hshape := mac_err_shape owner (pl.endpoint ++ "/tracks") none
        (some [("uris", rest.foldl
          (fun acc tid => acc ++ "," ++ "spotify:track:" ++ tid)
          ("spotify:track:" ++ first))]) w
      cases hmac : make_authorized_api_call owner (pl.endpoint ++ "/tracks") none
          (some [("uris", rest.foldl
            (fun acc tid => acc ++ "," ++ "spotify:track:" ++ tid)
            ("spotify:track:" ++ first))]) w with
      | mk r w1 =>
        rw [hmac] at herr hshape
        cases r with
        | error e2 =>
          dsimp only at herr hshape
          injection herr with h2
          subst h2
          rcases hshape e2 rfl with h3 | ⟨k, h3⟩ | h3 <;> subst h3 <;> simp
        | ok v =>
          dsimp only at herr
          cases herr

theorem C9_nonempty_guard_witness :
    wTracks.users.find? (fun v => v.id = plA.owner_id) = some uA ∧
    add_tracks_to_playlist plA [] wTracks = (.error .indexError, wTracks) :=
  ⟨rfl, (C9_nonempty_guard plA [] wTracks uA rfl).1 rfl⟩

/-! ## Claim C10: the executor only POSTs; the profile fetch GETs directly -/

/-- Every trace the executor leaves is one, two or three POSTs appended to
the existing trace. -/
theorem mac_trace (u : User) (ep : String) (d : Option ReqBody)
    (p : Option (List (String × String))) (w : World) :
    (make_authorized_api_call u ep d p w).2.trace =
      w.trace ++ [⟨.post, ep, u.auth_header, d, p⟩] ∨
    (make_authorized_api_call u ep d p w).2.trace =
      w.trace ++ [⟨.post, ep, u.auth_header, d, p⟩, tokenRequest u] ∨
    ∃ u2, (make_authorized_api_call u ep d p w).2.trace =
      w.trace ++ [⟨.post, ep, u.auth_header, d, p⟩, tokenRequest u,
        ⟨.post, ep, User.auth_header u2, d, p⟩] := by
  unfold make_authorized_api_call doRequest
  dsimp only
  by_cases h : (w.resps w.nextResp).status_code = 401
  · rw [if_pos h, refresh_spec]
    dsimp only
    cases tokenOf (w.resps (w.nextResp + 1)) with
    | error e =>
      right; left
      dsimp only
      simp [List.append_assoc]
    | ok t =>
      right; right
      refine ⟨{ u with access_token := t }, ?_⟩
      dsimp only [session_add, session_commit]
      simp [List.append_assoc]
  · rw [if_neg h]
    left
    rfl

/-- `get_user_data` with a well-formed token pair issues exactly one direct
GET of the profile endpoint and never touches the executor's (ghost) api
call log. -/
theorem gud_world (ad : JVal) (w : World) (a r : String)
    (ha : getStrF ad "access_token" = .ok a)
    (hr : getStrF ad "refresh_token" = .ok r) :
    (get_user_data ad w).2.trace = w.trace ++
      [⟨.get, USER_PROFILE_ENDPOINT, [("Authorization", "Bearer " ++ a)], none, none⟩] ∧
    (get_user_data ad w).2.apiCalls = w.apiCalls := by
  unfold get_user_data doRequest
  rw [ha, hr]
  dsimp only
  cases json_loads (w.resps w.nextResp).text with
  | error e => exact ⟨rfl, rfl⟩
  | ok pd =>
    dsimp only
    cases getStrF pd "display_name" with
    | error e => exact ⟨rfl, rfl⟩
    | ok dn =>
      dsimp only
      cases getStrF pd "email" with
      | error e => exact ⟨rfl, rfl⟩
      | ok em =>
        dsimp only
        cases dictGet pd "external_urls" with
        | error e => exact ⟨rfl, rfl⟩
        | ok eu =>
          dsimp only
          cases getStrF eu "spotify" with
          | error e => exact ⟨rfl, rfl⟩
          | ok url =>
            dsimp only
            cases getStrF pd "id" with
            | error e => exact ⟨rfl, rfl⟩
            | ok idv =>
              dsimp only
              cases List.find? (fun v => v.email = em)
                  ({ w with
                     nextResp := w.nextResp + 1,
                     trace := w.trace ++
                       [⟨.get, USER_PROFILE_ENDPOINT,
                         [("Authorization", "Bearer " ++ a)], none, none⟩] } : World).users with
              | none => exact ⟨rfl, rfl⟩
              | some u0 => exact ⟨rfl, rfl⟩

/-- C10: the executor issues only POST requests — the initial request and
the 401-triggered reissue alike, for every endpoint — while the profile
fetch of `get_user_data` bypasses the executor entirely and performs one
direct GET. -/
theorem C10_methods (u : User) (ep : String) (d : Option ReqBody)
    (p : Option (List (String × String))) (w w2 : World) (ad : JVal)
    (a r : String)
    (ha : getStrF ad "access_token" = .ok a)
    (hr : getStrF ad "refresh_token" = .ok r) :
    (∀ q ∈ (make_authorized_api_call u ep d p w).2.trace.drop w.trace.length,
      q.method = Method.post) ∧
    (get_user_data ad w2).2.trace.drop w2.trace.length =
      [⟨.get, USER_PROFILE_ENDPOINT, [("Authorization", "Bearer " ++ a)], none, none⟩] ∧
    (get_user_data ad w2).2.apiCalls = w2.apiCalls := by
  refine ⟨?_, ?_, (gud_world ad w2 a r ha hr).2⟩
  · rcases mac_trace u ep d p w with h | h | ⟨u2, h⟩ <;>
      rw [h, List.drop_left] <;> intro q hq <;>
      simp only [List.mem_cons, List.not_mem_nil, or_false] at hq
    · rw [hq]
    · rcases hq with h2 | h2 <;> rw [h2] <;> rfl
    · rcases hq with h2 | h2 | h2 <;> rw [h2] <;> rfl
  · rw [(gud_world ad w2 a r ha hr).1, List.drop_left]

theorem C10_methods_witness :
    getStrF authDataA "access_token" = .ok "tokA" ∧
    getStrF authDataA "refresh_token" = .ok "refA" ∧
    ((∀ q ∈ (make_authorized_api_call uA epA none none wTracks).2.trace.drop
        wTracks.trace.length, q.method = Method.post) ∧
     (get_user_data authDataA wC10).2.trace.drop wC10.trace.length =
       [⟨.get, USER_PROFILE_ENDPOINT, [("Authorization", "Bearer " ++ "tokA")],
         none, none⟩] ∧
     (get_user_data authDataA wC10).2.apiCalls = wC10.apiCalls) :=
  ⟨rfl, rfl, C10_methods uA epA none none wTracks wC10 authDataA "tokA" "refA" rfl rfl⟩
